import Mathlib

/-!
# Verification of `src/app.py` (CI build-cache packaging and upload script)

Shallow embedding of the script's operations:

* `package_and_split_files` embeds the Python function of the same name
  (archive creation over a modelled filesystem, size check, external
  `zip -s` split invocation, glob + lexicographic sort of the parts).
* `mainRun` embeds the top-level orchestration (credential check, status
  messages, packaging, upload loop, final summary, cleanup, exit code).

External effects (filesystem walks, subprocess exit codes, HTTP results)
are supplied as explicit inputs; the embedding records the observable
outputs (the part list, the attempted uploads with their captions, the
messages, whether the cleanup step was reached, and the exit status).
-/

namespace App

/-! ## Path helpers (embedding `os.path` operations on POSIX paths) -/

/-- `os.path.join(a, b)` for a relative second component. -/
def pathJoin (a b : String) : String := a ++ "/" ++ b

/-- Split a character list at a separator character. -/
def splitChars (c : Char) : List Char → List (List Char)
  | [] => [[]]
  | x :: xs =>
    let r := splitChars c xs
    if x = c then [] :: r
    else
      match r with
      | h :: t => (x :: h) :: t
      | [] => [[x]]

/-- Path components of a POSIX path: split on `/`, dropping empty
components and `.` (as `posixpath` does when computing relative paths). -/
def pathComponents (p : String) : List String :=
  ((splitChars '/' p.data).map (fun l => String.mk l)).filter
    (fun s => !(s == "" || s == "."))

/-- `os.path.basename`: everything after the last `/`. -/
def basename (p : String) : String :=
  String.mk ((p.data.reverse.takeWhile (fun c => c ≠ '/')).reverse)

/-- `os.path.dirname`: everything before the last `/`, with trailing
slashes stripped unless the result consists only of slashes. -/
def dirname (p : String) : String :=
  let head := (p.data.reverse.dropWhile (fun c => c ≠ '/')).reverse
  if head.isEmpty then ""
  else if head.all (fun c => c = '/') then String.mk head
  else String.mk ((head.reverse.dropWhile (fun c => c = '/')).reverse)

/-- Length of the common prefix of two component lists. -/
def commonLen : List String → List String → Nat
  | a :: as, b :: bs => if a = b then commonLen as bs + 1 else 0
  | _, _ => 0

/-- `os.path.relpath(path, start)` on normalized POSIX paths: strip the
common component run, then climb with `..` and descend into the rest. -/
def relpath (path start : String) : String :=
  let ps := pathComponents path
  let ss := pathComponents start
  let c := commonLen ss ps
  let out := List.replicate (ss.length - c) ".." ++ ps.drop c
  if out.isEmpty then "." else String.intercalate "/" out

/-- Does the path start with `/`? -/
def isAbsPath (p : String) : Bool :=
  match p.data with
  | c :: _ => c = '/'
  | [] => false

/-- Longest common prefix of two component lists. -/
def commonRun : List String → List String → List String
  | a :: as, b :: bs => if a = b then a :: commonRun as bs else []
  | _, _ => []

/-- `os.path.commonpath`: longest common component prefix of the paths
(the Python version raises on an empty list; the program never calls it
that way, and this embedding returns `""` there). -/
def commonpath (paths : List String) : String :=
  match paths with
  | [] => ""
  | p :: rest =>
    let common := rest.foldl (fun acc q => commonRun acc (pathComponents q))
      (pathComponents p)
    (if isAbsPath p then "/" else "") ++ String.intercalate "/" common

/-! ## String ordering (embedding Python's `sorted` on strings)

Python compares strings lexicographically by code point; core Lean's
`String.ltb` does not reduce in the kernel, so the comparison is embedded
structurally over the character lists and related to Mathlib's `String`
order by proof. -/

/-- Lexicographic strict comparison of character lists by code point. -/
def charsLt : List Char → List Char → Bool
  | [], [] => false
  | [], _ :: _ => true
  | _ :: _, [] => false
  | a :: as, b :: bs => if a < b then true else if b < a then false else charsLt as bs

/-- Strict lexicographic order on strings, as Python's `<`. -/
def strLt (s t : String) : Bool := charsLt s.data t.data

/-- Non-strict lexicographic order on strings, as Python's `<=`. -/
def strLe (s t : String) : Bool := !(strLt t s)

/-- Ascending sort of a string list, as Python's `sorted`. -/
def sortStrings (l : List String) : List String :=
  List.insertionSort (fun a b => strLe a b = true) l

/-! ## Filesystem model

`os.path.exists` / `os.path.isdir` / `os.walk` / `zipfile` writes are
modelled as explicit inputs.  The single structural fact used from the
`os` semantics is that `os.walk` yields triples only under a directory
(walking a regular file or a non-existent path yields nothing). -/

structure FS where
  /-- `os.path.exists p` (truthiness). -/
  fsExists : String → Bool
  /-- `os.path.isdir p`. -/
  isDir : String → Bool
  /-- `os.walk p`: the `(root, files)` pairs yielded, in yield order
  (the `dirs` component is unused by the script). -/
  walk : String → List (String × List String)
  /-- Whether `zf.write(file_path, arcname)` completes without raising
  an exception for the given file path. -/
  writeOk : String → Bool
  /-- `os.walk` yields something only when the walked path is a directory. -/
  walk_isDir : ∀ p, walk p ≠ [] → isDir p = true

/-- The `file_path` values produced for one source path:
`os.path.join(root, file)` for each yielded root and file. -/
def walkFiles (fs : FS) (p : String) : List String :=
  (fs.walk p).flatMap (fun rf => rf.2.map (fun file => pathJoin rf.1 file))

/-- The `arcname` expression of `app.py` line 84:
`os.path.relpath(file_path, os.path.dirname(source_path) if
os.path.isdir(source_path) else os.path.commonpath(source_paths))`. -/
def arcname (fs : FS) (source_paths : List String) (source_path file_path : String) :
    String :=
  relpath file_path
    (if fs.isDir source_path then dirname source_path else commonpath source_paths)

/-- Write a run of files into the archive: each successful write records
the `(file_path, arcname)` entry; a raising write aborts the whole
archive construction (the surrounding `try` catches it). -/
def writeFiles (fs : FS) (arc : String → String) :
    List String → Except Unit (List (String × String))
  | [] => .ok []
  | f :: rest =>
    if fs.writeOk f then
      match writeFiles fs arc rest with
      | .ok es => .ok ((f, arc f) :: es)
      | .error e => .error e
    else .error ()

/-- The per-source-path loop of archive creation: a missing source path
is skipped (warning only), an existing one contributes the entries of its
recursive walk.  `all` is the full `source_paths` list (used by
`arcname`'s `commonpath` branch), `rem` the paths still to process. -/
def archiveGo (fs : FS) (all : List String) :
    List String → Except Unit (List (String × String))
  | [] => .ok []
  | s :: rest =>
    if fs.fsExists s then
      match writeFiles fs (arcname fs all s) (walkFiles fs s) with
      | .error e => .error e
      | .ok es =>
        match archiveGo fs all rest with
        | .error e => .error e
        | .ok more => .ok (es ++ more)
    else archiveGo fs all rest

/-- Archive creation (`app.py` lines 73–90): the entries written, or an
exception (`.error`) when some write raised. -/
def archiveAll (fs : FS) (source_paths : List String) :
    Except Unit (List (String × String)) :=
  archiveGo fs source_paths source_paths

/-! ## `package_and_split_files` -/

def MAX_TELEGRAM_CHUNK_MB : Nat := 49

def MAX_TELEGRAM_CHUNK_BYTES : Nat := MAX_TELEGRAM_CHUNK_MB * 1024 * 1024

/-- External-effect inputs of one `package_and_split_files` run. -/
structure PackEnv where
  fs : FS
  /-- `os.path.getsize(full_zip_path)` after archive creation. -/
  archiveSize : Nat
  /-- Whether the `zip -s` subprocess exits with status zero. -/
  splitExitZero : Bool
  /-- The paths matching `glob.glob(temp_dir/base_part.z*)` after the split. -/
  globFiles : List String

/-- Observable result of `package_and_split_files`. -/
structure PackResult where
  /-- The returned `files_to_upload` list. -/
  files : List String
  /-- The archive entries written (empty when creation failed). -/
  entries : List (String × String)
  /-- The `zip -s` command line, when the split tool was invoked. -/
  splitCmd : Option (List String)
  /-- Whether `os.remove(full_zip_path)` was executed. -/
  originalRemoved : Bool

/-- Embedding of `package_and_split_files` (`app.py` lines 63–119). -/
def package_and_split_files (env : PackEnv) (temp_dir output_zip_base_name : String)
    (source_paths : List String) (split_bytes : Nat) : PackResult :=
  let full_zip_path := pathJoin temp_dir (output_zip_base_name ++ ".zip")
  match archiveAll env.fs source_paths with
  | .error _ => ⟨[], [], none, false⟩
  | .ok entries =>
    if env.archiveSize > split_bytes then
      let split_command :=
        ["zip", "-s", toString MAX_TELEGRAM_CHUNK_MB ++ "m",
         pathJoin temp_dir (output_zip_base_name ++ "_part.zip"), full_zip_path]
      if env.splitExitZero then
        ⟨sortStrings env.globFiles, entries, some split_command, true⟩
      else ⟨[], entries, some split_command, false⟩
    else ⟨[full_zip_path], entries, none, false⟩

/-! ## Main orchestration (`app.py` lines 121–168) -/

/-- The status-message texts of `app.py`. -/
def startText : String := "Starting packaging and upload of build environment files..."

def failText : String := "Failed to package and split build environment files."

def uploadingText : String := "Uploading packaged build environment in parts..."

def successText : String := "Successfully uploaded all packaged build environment files."

def warningText : String :=
  "WARNING: Some packaged build environment files failed to upload."

/-- The caption built on `app.py` line 155 for the part at 0-based
index `i` of an `n`-element part list. -/
def caption (run_number : String) (i n : Nat) (file_path : String) : String :=
  "Build Env (" ++ run_number ++ ") Part " ++ toString (i + 1) ++ "/" ++
    toString n ++ ": " ++ basename file_path

/-- External-effect inputs of one whole run of the script. -/
structure MainEnv where
  /-- Truthiness of `TELEGRAM_BOT_TOKEN` (set and non-empty). -/
  tokenPresent : Bool
  /-- Truthiness of `TELEGRAM_CHAT_ID`. -/
  chatPresent : Bool
  /-- `GITHUB_RUN_NUMBER`. -/
  run_number : String
  /-- `GITHUB_WORKSPACE`. -/
  workspace : String
  /-- The runner's home directory (for `os.path.expanduser`). -/
  home : String
  /-- Transport success of the k-th `send_telegram_message` call
  (failure makes that helper call `exit(1)`). -/
  msgOk : Nat → Bool
  /-- Result of `send_telegram_document` for a given file path (false on
  a missing file, a transport error, or a non-`ok` response). -/
  uploadOk : String → Bool
  /-- Inputs of the inner `package_and_split_files` call. -/
  pack : PackEnv

/-- `source_dirs_to_package` (`app.py` lines 126–136). -/
def sourceDirs (env : MainEnv) : List String :=
  [env.home ++ "/.pub-cache",
   env.home ++ "/.gradle/caches",
   env.home ++ "/.gradle/wrapper",
   pathJoin env.workspace "android"]

/-- The `packaged_files` value of the run (`app.py` lines 140–145). -/
def packagedFiles (env : MainEnv) : List String :=
  (package_and_split_files env.pack "telegram_package_temp"
    ("full_build_env_" ++ env.run_number) (sourceDirs env)
    MAX_TELEGRAM_CHUNK_BYTES).files

/-- The upload loop (`app.py` lines 153–158): attempts parts in order
starting at 0-based index `i`, records each attempted `(path, caption)`
pair, and stops at the first failed upload.  Returns the attempts and
the final `all_uploads_successful` flag. -/
def uploadLoop (u : String → Bool) (run_number : String) (n : Nat) :
    List String → Nat → List (String × String) × Bool
  | [], _ => ([], true)
  | f :: rest, i =>
    let cap := caption run_number i n f
    if u f then
      let r := uploadLoop u run_number n rest (i + 1)
      ((f, cap) :: r.1, r.2)
    else ([(f, cap)], false)

/-- Observable trace of one whole run of the script. -/
structure Trace where
  /-- Texts of the `send_telegram_message` calls made, in order. -/
  messages : List String
  /-- The `(file_path, caption)` pairs of attempted document uploads. -/
  uploads : List (String × String)
  /-- Whether the cleanup step (`rm -rf` of the temporary packaging
  directory, lines 166–167) was reached. -/
  cleanupReached : Bool
  /-- The process exit status. -/
  exitCode : Nat

/-- Embedding of the top-level script execution: credential check,
status messages, packaging, upload loop, final summary, cleanup.
`exit(1)` inside `send_telegram_message` models a transport failure of
that status message. -/
def mainRun (env : MainEnv) : Trace :=
  if env.tokenPresent && env.chatPresent then
    if env.msgOk 0 then
      if packagedFiles env = [] then
        ⟨[startText, failText], [], false, 1⟩
      else
        if env.msgOk 1 then
          let r := uploadLoop env.uploadOk env.run_number
            (packagedFiles env).length (packagedFiles env) 0
          let finalText := if r.2 then successText else warningText
          if env.msgOk 2 then
            ⟨[startText, uploadingText, finalText], r.1, true, 0⟩
          else ⟨[startText, uploadingText, finalText], r.1, false, 1⟩
        else ⟨[startText, uploadingText], [], false, 1⟩
    else ⟨[startText], [], false, 1⟩
  else ⟨[], [], false, 1⟩

/-! ## Segment names produced by the external split tool -/

/-- The two-digit decimal suffix used by split-archive volume names. -/
def twoDigits (n : Nat) : String :=
  String.mk [Nat.digitChar (n / 10), Nat.digitChar (n % 10)]

/-- Modelled from the spec: the external split tool (not part of this
repository) writes its volumes next to the archive as
`<base>_part.z01`, …, `<base>_part.z<k>`, and the final volume
`<base>_part.zip`; this is the full name list for `k` numbered volumes,
in sequential volume order. -/
def segmentNames (temp_dir base : String) (k : Nat) : List String :=
  ((List.range k).map
    (fun i => pathJoin temp_dir (base ++ "_part.z" ++ twoDigits (i + 1)))) ++
  [pathJoin temp_dir (base ++ "_part.zip")]

/-- Modelled from the spec: a byte threshold "expressed in the tool's
size-unit syntax" (whole mebibytes with the `m` suffix, as in the spec's
`49m` for the 49 MiB threshold). -/
def thresholdSizeArg (b : Nat) : String :=
  toString (b / (1024 * 1024)) ++ "m"

/-! ## Lemmas about the upload loop -/

theorem uploadLoop_get (u : String → Bool) (rn : String) (n : Nat) :
    ∀ (l : List String) (i j : Nat) (p : String × String),
      (uploadLoop u rn n l i).1[j]? = some p →
      ∃ f, l[j]? = some f ∧ p = (f, caption rn (i + j) n f) := by
  intro l
  induction l with
  | nil => intro i j p h; simp [uploadLoop] at h
  | cons f rest ih =>
    intro i j p h
    by_cases hu : u f = true
    · simp only [uploadLoop, hu, if_true] at h
      cases j with
      | zero =>
        simp only [List.getElem?_cons_zero, Option.some.injEq] at h
        exact ⟨f, by simp, h.symm⟩
      | succ j =>
        simp only [List.getElem?_cons_succ] at h
        obtain ⟨g, hg, hp⟩ := ih (i + 1) j p h
        refine ⟨g, by simpa using hg, ?_⟩
        rw [hp]
        have harith : i + 1 + j = i + (j + 1) := by omega
        rw [harith]
    · simp only [uploadLoop, hu] at h
      cases j with
      | zero =>
        simp only [if_false, Bool.false_eq_true, List.getElem?_cons_zero,
          Option.some.injEq] at h
        exact ⟨f, by simp, h.symm⟩
      | succ j =>
        simp at h


theorem uploadLoop_halt (u : String → Bool) (rn : String) (n : Nat) :
    ∀ (l : List String) (i k : Nat) (fk : String),
      l[k]? = some fk → u fk = false →
      (∀ j f, j < k → l[j]? = some f → u f = true) →
      (uploadLoop u rn n l i).1.map Prod.fst = l.take (k + 1) ∧
      (uploadLoop u rn n l i).2 = false := by
  intro l
  induction l with
  | nil => intro i k fk h _ _; simp at h
  | cons f rest ih =>
    intro i k fk hk hfk hprev
    cases k with
    | zero =>
      simp only [List.getElem?_cons_zero, Option.some.injEq] at hk
      subst hk
      simp [uploadLoop, hfk]
    | succ k =>
      have hf : u f = true := hprev 0 f (Nat.succ_pos k) (by simp)
      simp only [List.getElem?_cons_succ] at hk
      have ih2 := ih (i + 1) k fk hk hfk
        (fun j g hj hg => hprev (j + 1) g (by omega) (by simpa using hg))
      simp only [uploadLoop, hf, if_true]
      exact ⟨by simp [ih2.1], ih2.2⟩

/-! ## Branch lemmas for `package_and_split_files` -/

theorem pack_below (env : PackEnv) (t b : String) (srcs : List String) (sb : Nat)
    (es : List (String × String)) (ha : archiveAll env.fs srcs = .ok es)
    (hs : env.archiveSize ≤ sb) :
    package_and_split_files env t b srcs sb =
      ⟨[pathJoin t (b ++ ".zip")], es, none, false⟩ := by
  unfold package_and_split_files
  rw [ha]
  simp [Nat.not_lt.mpr hs]

theorem pack_split_ok (env : PackEnv) (t b : String) (srcs : List String) (sb : Nat)
    (es : List (String × String)) (ha : archiveAll env.fs srcs = .ok es)
    (hs : env.archiveSize > sb) (hz : env.splitExitZero = true) :
    package_and_split_files env t b srcs sb =
      ⟨sortStrings env.globFiles, es,
       some ["zip", "-s", toString MAX_TELEGRAM_CHUNK_MB ++ "m",
             pathJoin t (b ++ "_part.zip"), pathJoin t (b ++ ".zip")], true⟩ := by
  unfold package_and_split_files
  rw [ha]
  simp [hs, hz]

theorem pack_split_fail (env : PackEnv) (t b : String) (srcs : List String) (sb : Nat)
    (es : List (String × String)) (ha : archiveAll env.fs srcs = .ok es)
    (hs : env.archiveSize > sb) (hz : env.splitExitZero = false) :
    package_and_split_files env t b srcs sb =
      ⟨[], es,
       some ["zip", "-s", toString MAX_TELEGRAM_CHUNK_MB ++ "m",
             pathJoin t (b ++ "_part.zip"), pathJoin t (b ++ ".zip")], false⟩ := by
  unfold package_and_split_files
  rw [ha]
  simp [hs, hz]

theorem pack_archive_error (env : PackEnv) (t b : String) (srcs : List String)
    (sb : Nat) (ha : archiveAll env.fs srcs = .error ()) :
    package_and_split_files env t b srcs sb = ⟨[], [], none, false⟩ := by
  unfold package_and_split_files
  rw [ha]

/-! ## Branch lemmas for `mainRun` -/

theorem mainRun_loop (env : MainEnv) (h1 : env.tokenPresent = true)
    (h2 : env.chatPresent = true) (h3 : env.msgOk 0 = true)
    (h4 : packagedFiles env ≠ []) (h5 : env.msgOk 1 = true) :
    mainRun env =
      ⟨[startText, uploadingText,
        if (uploadLoop env.uploadOk env.run_number (packagedFiles env).length
            (packagedFiles env) 0).2 then successText else warningText],
       (uploadLoop env.uploadOk env.run_number (packagedFiles env).length
         (packagedFiles env) 0).1,
       env.msgOk 2, if env.msgOk 2 then 0 else 1⟩ := by
  cases h6 : env.msgOk 2 <;> simp [mainRun, h1, h2, h3, h4, h5, h6]

theorem mainRun_uploads_eq (env : MainEnv) :
    (mainRun env).uploads = [] ∨
    (mainRun env).uploads =
      (uploadLoop env.uploadOk env.run_number (packagedFiles env).length
        (packagedFiles env) 0).1 := by
  unfold mainRun
  cases h1 : env.tokenPresent && env.chatPresent <;> simp
  cases h2 : env.msgOk 0 <;> simp
  by_cases h3 : packagedFiles env = [] <;> simp [h3]
  cases h4 : env.msgOk 1 <;> simp
  cases h5 : env.msgOk 2 <;> simp


theorem mainRun_exitCode (env : MainEnv) :
    (mainRun env).exitCode =
      if env.tokenPresent = true ∧ env.chatPresent = true ∧ env.msgOk 0 = true ∧
         env.msgOk 1 = true ∧ env.msgOk 2 = true ∧ packagedFiles env ≠ [] then 0
      else 1 := by
  by_cases h3 : packagedFiles env = [] <;>
  cases h1 : env.tokenPresent <;> cases h2 : env.chatPresent <;>
  cases hm0 : env.msgOk 0 <;> cases hm1 : env.msgOk 1 <;>
  cases hm2 : env.msgOk 2 <;>
  simp [mainRun, h1, h2, h3, hm0, hm1, hm2]

/-! ## Lemmas about the archiver -/

theorem writeFiles_congr (fs : FS) (a1 a2 : String → String)
    (h : ∀ f, a1 f = a2 f) :
    ∀ l, writeFiles fs a1 l = writeFiles fs a2 l := by
  intro l
  induction l with
  | nil => rfl
  | cons f rest ih => simp only [writeFiles, ih, h]

theorem writeFiles_mem (fs : FS) (arc : String → String) :
    ∀ (l : List String) (es : List (String × String)),
      writeFiles fs arc l = .ok es →
      ∀ e ∈ es, ∃ f, f ∈ l ∧ e = (f, arc f) := by
  intro l
  induction l with
  | nil =>
    intro es h e he
    simp only [writeFiles, Except.ok.injEq] at h
    subst h
    simp at he
  | cons f rest ih =>
    intro es h e he
    simp only [writeFiles] at h
    by_cases hw : fs.writeOk f = true
    · rw [if_pos hw] at h
      cases hr : writeFiles fs arc rest with
      | error u => rw [hr] at h; exact absurd h (by simp)
      | ok es2 =>
        rw [hr] at h
        simp only [Except.ok.injEq] at h
        subst h
        rcases List.mem_cons.mp he with he | he
        · exact ⟨f, by simp, he⟩
        · obtain ⟨g, hg, hge⟩ := ih es2 hr e he
          exact ⟨g, by simp [hg], hge⟩
    · rw [if_neg hw] at h
      exact absurd h (by simp)

theorem walkFiles_walk_ne (fs : FS) (s f : String) (h : f ∈ walkFiles fs s) :
    fs.walk s ≠ [] := by
  intro hw
  rw [walkFiles, hw] at h
  simp at h

theorem arcname_of_isDir (fs : FS) (srcs : List String) (s : String)
    (h : fs.isDir s = true) (f : String) :
    arcname fs srcs s f = relpath f (dirname s) := by
  simp [arcname, h]

theorem sourceWrite_indep (fs : FS) (all1 all2 : List String) (s : String) :
    writeFiles fs (arcname fs all1 s) (walkFiles fs s) =
    writeFiles fs (arcname fs all2 s) (walkFiles fs s) := by
  cases hw : walkFiles fs s with
  | nil => rfl
  | cons f rest =>
    have hne : fs.walk s ≠ [] :=
      walkFiles_walk_ne fs s f (by rw [hw]; exact List.mem_cons_self f rest)
    have hd : fs.isDir s = true := fs.walk_isDir s hne
    exact writeFiles_congr fs _ _
      (fun g => by rw [arcname_of_isDir fs all1 s hd, arcname_of_isDir fs all2 s hd]) _

theorem archiveGo_indep (fs : FS) (all1 all2 : List String) :
    ∀ rem, archiveGo fs all1 rem = archiveGo fs all2 rem := by
  intro rem
  induction rem with
  | nil => rfl
  | cons s rest ih =>
    simp only [archiveGo, ih, sourceWrite_indep fs all1 all2 s]

theorem archiveGo_skip (fs : FS) (p : String) (hp : fs.fsExists p = false) :
    ∀ (pre : List String) (all1 all2 post : List String),
      archiveGo fs all1 (pre ++ p :: post) = archiveGo fs all2 (pre ++ post) := by
  intro pre
  induction pre with
  | nil =>
    intro all1 all2 post
    simp only [List.nil_append, archiveGo, hp, Bool.false_eq_true, if_false]
    exact archiveGo_indep fs all1 all2 post
  | cons s rest ih =>
    intro all1 all2 post
    have ih2 : archiveGo fs all1 (rest.append (p :: post)) =
        archiveGo fs all2 (rest.append post) := ih all1 all2 post
    simp only [List.cons_append, archiveGo, ih2,
      sourceWrite_indep fs all1 all2 s]

theorem archiveGo_entry_dir (fs : FS) (all : List String) :
    ∀ (rem : List String) (entries : List (String × String)),
      archiveGo fs all rem = .ok entries →
      ∀ e ∈ entries, ∃ src, src ∈ rem ∧ fs.isDir src = true ∧
        e.2 = relpath e.1 (dirname src) := by
  intro rem
  induction rem with
  | nil =>
    intro entries h e he
    simp only [archiveGo, Except.ok.injEq] at h
    subst h
    simp at he
  | cons s rest ih =>
    intro entries h e he
    simp only [archiveGo] at h
    by_cases hx : fs.fsExists s = true
    · rw [if_pos hx] at h
      cases hw : writeFiles fs (arcname fs all s) (walkFiles fs s) with
      | error u => rw [hw] at h; exact absurd h (by simp)
      | ok es =>
        rw [hw] at h
        cases hg : archiveGo fs all rest with
        | error u => rw [hg] at h; exact absurd h (by simp)
        | ok more =>
          rw [hg] at h
          simp only [Except.ok.injEq] at h
          subst h
          rcases List.mem_append.mp he with he | he
          · obtain ⟨f, hf, hef⟩ := writeFiles_mem fs _ _ es hw e he
            have hne : fs.walk s ≠ [] := walkFiles_walk_ne fs s f hf
            have hd : fs.isDir s = true := fs.walk_isDir s hne
            refine ⟨s, by simp, hd, ?_⟩
            rw [hef]
            simpa using arcname_of_isDir fs all s hd f
          · obtain ⟨src, hsrc, hd, he2⟩ := ih more hg e he
            exact ⟨src, by simp [hsrc], hd, he2⟩
    · rw [if_neg hx] at h
      obtain ⟨src, hsrc, hd, he2⟩ := ih entries h e he
      exact ⟨src, by simp [hsrc], hd, he2⟩


/-! ## The embedded string order agrees with Mathlib's `String` order -/

theorem charsLt_iff : ∀ (a b : List Char), charsLt a b = true ↔ List.Lex (· < ·) a b
  | [], [] => by
    simp only [charsLt, Bool.false_eq_true, false_iff]
    exact List.Lex.not_nil_right _ _
  | [], b :: bs => by
    simp only [charsLt, true_iff]
    exact List.Lex.nil
  | a :: as, [] => by
    simp only [charsLt, Bool.false_eq_true, false_iff]
    exact List.Lex.not_nil_right _ _
  | a :: as, b :: bs => by
    by_cases h1 : a < b
    · simp only [charsLt, if_pos h1, true_iff]
      exact List.Lex.rel h1
    · by_cases h2 : b < a
      · simp only [charsLt, if_neg h1, if_pos h2, Bool.false_eq_true, false_iff]
        intro h
        cases h with
        | rel hr => exact h1 hr
        | cons hc => exact lt_irrefl a h2
      · have hab : a = b := le_antisymm (not_lt.mp h2) (not_lt.mp h1)
        subst hab
        rw [show charsLt (a :: as) (a :: bs) = charsLt as bs by
          simp [charsLt, h1]]
        rw [charsLt_iff as bs]
        constructor
        · exact List.Lex.cons
        · intro h
          cases h with
          | rel hr => exact absurd hr (lt_irrefl a)
          | cons hc => exact hc

theorem strLt_iff (s t : String) : strLt s t = true ↔ s < t :=
  (charsLt_iff s.data t.data).trans String.lt_iff_toList_lt.symm

theorem strLt_of_lex (s t : String) (h : List.Lex (· < ·) s.data t.data) : s < t :=
  (strLt_iff s t).mp ((charsLt_iff s.data t.data).mpr h)

theorem strLe_iff (s t : String) : strLe s t = true ↔ s ≤ t := by
  have h1 : strLe s t = true ↔ ¬ strLt t s = true := by
    simp [strLe]
  rw [h1, strLt_iff]
  exact not_lt

instance : IsTotal String (fun a b => strLe a b = true) :=
  ⟨fun a b => by
    rcases le_total a b with h | h
    · exact Or.inl ((strLe_iff a b).mpr h)
    · exact Or.inr ((strLe_iff b a).mpr h)⟩

instance : IsTrans String (fun a b => strLe a b = true) :=
  ⟨fun a b c hab hbc =>
    (strLe_iff a c).mpr (le_trans ((strLe_iff a b).mp hab) ((strLe_iff b c).mp hbc))⟩

instance : IsAntisymm String (fun a b => strLe a b = true) :=
  ⟨fun a b hab hba => le_antisymm ((strLe_iff a b).mp hab) ((strLe_iff b a).mp hba)⟩

theorem sortStrings_eq_of_perm_sorted (l canon : List String)
    (hp : l.Perm canon) (hs : List.Sorted (· < ·) canon) :
    sortStrings l = canon :=
  @List.eq_of_perm_of_sorted String (fun a b => strLe a b = true) inferInstance
    (sortStrings l) canon ((List.perm_insertionSort _ l).trans hp)
    (List.sorted_insertionSort _ l)
    (hs.imp (fun h => (strLe_iff _ _).mpr (le_of_lt h)))

theorem sortStrings_eq_nil (l : List String) : sortStrings l = [] ↔ l = [] := by
  constructor
  · intro h
    have hlen : (sortStrings l).length = l.length :=
      (List.perm_insertionSort _ l).length_eq
    rw [h] at hlen
    exact List.length_eq_zero.mp hlen.symm
  · intro h
    rw [h]
    rfl

/-! ## Sortedness of the split-volume names -/

theorem lexLt_append_left (p : List Char) {a b : List Char}
    (h : List.Lex (· < ·) a b) : List.Lex (· < ·) (p ++ a) (p ++ b) := by
  induction p with
  | nil => exact h
  | cons c cs ih => exact List.Lex.cons ih

theorem strLt_append_left (p s t : String) (h : s < t) : p ++ s < p ++ t := by
  have hlex : List.Lex (· < ·) s.data t.data :=
    (charsLt_iff s.data t.data).mp ((strLt_iff s t).mpr h)
  apply strLt_of_lex
  have e1 : (p ++ s).data = p.data ++ s.data := String.data_append p s
  have e2 : (p ++ t).data = p.data ++ t.data := String.data_append p t
  rw [e1, e2]
  exact lexLt_append_left p.data hlex

theorem digitChar_mono : ∀ b < 10, ∀ a < b, Nat.digitChar a < Nat.digitChar b := by
  decide

theorem digitChar_lt_i : ∀ a < 10, Nat.digitChar a < 'i' := by decide

theorem twoDigits_lt (i j : Nat) (hij : i < j) (hj : j ≤ 99) :
    (twoDigits i : String) < twoDigits j := by
  apply strLt_of_lex
  show List.Lex (· < ·) [Nat.digitChar (i / 10), Nat.digitChar (i % 10)]
    [Nat.digitChar (j / 10), Nat.digitChar (j % 10)]
  rcases Nat.lt_or_ge (i / 10) (j / 10) with h | h
  · exact List.Lex.rel (digitChar_mono (j / 10) (by omega) (i / 10) h)
  · have hdiv : i / 10 = j / 10 := by omega
    have hmod : i % 10 < j % 10 := by omega
    rw [hdiv]
    exact List.Lex.cons (List.Lex.rel (digitChar_mono (j % 10) (by omega) (i % 10) hmod))

theorem twoDigits_lt_ip (i : Nat) (hi : i ≤ 99) : (twoDigits i : String) < "ip" := by
  apply strLt_of_lex
  have hip : "ip".data = ['i', 'p'] := rfl
  show List.Lex (· < ·) [Nat.digitChar (i / 10), Nat.digitChar (i % 10)] "ip".data
  rw [hip]
  exact List.Lex.rel (digitChar_lt_i (i / 10) (by omega))

theorem segName_factor (t b x : String) :
    pathJoin t (b ++ "_part.z" ++ x) = t ++ "/" ++ b ++ "_part.z" ++ x := by
  simp [pathJoin, String.append_assoc]

theorem segLast_factor (t b : String) :
    pathJoin t (b ++ "_part.zip") = t ++ "/" ++ b ++ "_part.z" ++ "ip" := by
  simp only [pathJoin, String.append_assoc]
  rfl

theorem segmentNames_sorted (t b : String) (k : Nat) (hk : k ≤ 99) :
    List.Sorted (· < ·) (segmentNames t b k) := by
  unfold segmentNames
  rw [List.Sorted, List.pairwise_append]
  refine ⟨?_, by simp, ?_⟩
  · rw [List.pairwise_map]
    refine List.Pairwise.imp_of_mem ?_ (List.pairwise_lt_range k)
    intro i j hi hj hij
    rw [segName_factor, segName_factor]
    have hjk : j < k := List.mem_range.mp hj
    exact strLt_append_left _ _ _ (twoDigits_lt (i + 1) (j + 1) (by omega) (by omega))
  · intro x hx y hy
    simp only [List.mem_singleton] at hy
    subst hy
    obtain ⟨i, hi, rfl⟩ := List.mem_map.mp hx
    rw [segName_factor, segLast_factor]
    have hik : i < k := List.mem_range.mp hi
    exact strLt_append_left _ _ _ (twoDigits_lt_ip (i + 1) (by omega))


/-! ## Concrete environments used as witnesses -/

/-- A filesystem of empty directories: every path exists, is a directory,
and walks to nothing (archive creation trivially succeeds). -/
def fsEmptyDirs : FS where
  fsExists := fun _ => true
  isDir := fun _ => true
  walk := fun _ => []
  writeOk := fun _ => true
  walk_isDir := fun _ _ => rfl

/-- A filesystem where the walk finds one file and every archive write
raises (archive creation fails). -/
def fsWriteRaises : FS where
  fsExists := fun _ => true
  isDir := fun _ => true
  walk := fun _ => [("r", ["f"])]
  writeOk := fun _ => false
  walk_isDir := fun _ _ => rfl

/-- A filesystem where `/missing` does not exist and everything else is an
empty directory. -/
def fsOneMissing : FS where
  fsExists := fun p => p != "/missing"
  isDir := fun _ => true
  walk := fun _ => []
  writeOk := fun _ => true
  walk_isDir := fun _ _ => rfl

/-- A filesystem whose walk of any source finds the single file
`/a/f.txt`. -/
def fsOneFile : FS where
  fsExists := fun _ => true
  isDir := fun _ => true
  walk := fun _ => [("/a", ["f.txt"])]
  writeOk := fun _ => true
  walk_isDir := fun _ _ => rfl

/-- A run whose archive creation fails. -/
def envPackFails : MainEnv :=
  ⟨true, true, "7", "/w", "/h", fun _ => true, fun _ => true, ⟨fsWriteRaises, 0, true, []⟩⟩

/-- A run that packages one small archive and uploads it successfully. -/
def envOnePart : MainEnv :=
  ⟨true, true, "7", "/w", "/h", fun _ => true, fun _ => true, ⟨fsEmptyDirs, 0, true, []⟩⟩

/-- A run that packages one small archive and fails to upload it. -/
def envUploadFails : MainEnv :=
  ⟨true, true, "7", "/w", "/h", fun _ => true, fun _ => false, ⟨fsEmptyDirs, 0, true, []⟩⟩

/-- A run where every status-message send fails in transport. -/
def envMsgFails : MainEnv :=
  ⟨true, true, "7", "/w", "/h", fun _ => false, fun _ => true, ⟨fsEmptyDirs, 0, true, []⟩⟩

/-! ## Claim C1 -/

/-- Claim C1, counterexample: in a run whose packaging fails (an archive
write raises, so the part list is empty), the process exits with status 1
at `app.py` line 149 and the cleanup step is never reached — refuting the
claim that cleanup is reached before exit regardless of outcome. -/
theorem c1_counterexample :
    packagedFiles envPackFails = [] ∧
    (mainRun envPackFails).cleanupReached = false ∧
    (mainRun envPackFails).exitCode = 1 := by
  refine ⟨by decide, by decide, by decide⟩

/-- Claim C1, amended: the cleanup step is reached exactly when the
credentials are present, all three status messages send successfully, and
packaging returns a non-empty part list.  In particular upload failures do
not skip cleanup, but a packaging failure (empty part list) exits with
status 1 before the cleanup step, as does a failed status message. -/
theorem c1_cleanup_reached_iff (env : MainEnv) :
    (mainRun env).cleanupReached = true ↔
      (env.tokenPresent = true ∧ env.chatPresent = true ∧ env.msgOk 0 = true ∧
       env.msgOk 1 = true ∧ env.msgOk 2 = true ∧ packagedFiles env ≠ []) := by
  unfold mainRun
  by_cases h3 : packagedFiles env = [] <;>
  cases h1 : env.tokenPresent <;> cases h2 : env.chatPresent <;>
  cases hm0 : env.msgOk 0 <;> cases hm1 : env.msgOk 1 <;> cases hm2 : env.msgOk 2 <;>
  simp [h1, h2, h3, hm0, hm1, hm2]

/-! ## Claim C2 -/

/-- Claim C2: when archive creation succeeds and the archive size is at or
below `split_bytes`, `package_and_split_files` returns exactly the original
archive path as a single-element list and the external split tool is not
invoked. -/
theorem c2_no_split_at_or_below_threshold (env : PackEnv) (t b : String)
    (srcs : List String) (sb : Nat) (es : List (String × String))
    (ha : archiveAll env.fs srcs = .ok es) (hs : env.archiveSize ≤ sb) :
    (package_and_split_files env t b srcs sb).files = [pathJoin t (b ++ ".zip")] ∧
    (package_and_split_files env t b srcs sb).splitCmd = none := by
  rw [pack_below env t b srcs sb es ha hs]
  exact ⟨rfl, rfl⟩

theorem c2_witness :
    (package_and_split_files ⟨fsEmptyDirs, 100, true, []⟩ "telegram_package_temp"
      "full_build_env_7" ["/a"] MAX_TELEGRAM_CHUNK_BYTES).files =
      [pathJoin "telegram_package_temp" ("full_build_env_7" ++ ".zip")] ∧
    (package_and_split_files ⟨fsEmptyDirs, 100, true, []⟩ "telegram_package_temp"
      "full_build_env_7" ["/a"] MAX_TELEGRAM_CHUNK_BYTES).splitCmd = none :=
  c2_no_split_at_or_below_threshold ⟨fsEmptyDirs, 100, true, []⟩
    "telegram_package_temp" "full_build_env_7" ["/a"] MAX_TELEGRAM_CHUNK_BYTES []
    rfl (by decide)

/-! ## Claim C3 -/

/-- Claim C3, counterexample: archive creation succeeds but the split tool
exits non-zero, and the returned part list is empty — refuting the claimed
equivalence "non-empty iff archive creation succeeded". -/
theorem c3_counterexample :
    archiveAll fsEmptyDirs ["/a"] = Except.ok [] ∧
    (package_and_split_files ⟨fsEmptyDirs, 20, false, []⟩ "T" "b" ["/a"] 10).files =
      [] :=
  ⟨rfl, rfl⟩

/-- Claim C3, amended: the part list is non-empty iff archive creation
succeeded and, in the oversize case, the split tool also exited zero and at
least one segment file matched the glob; a split failure yields an empty
list even though the archive was created. -/
theorem c3_files_nonempty_iff (env : PackEnv) (t b : String) (srcs : List String)
    (sb : Nat) :
    (package_and_split_files env t b srcs sb).files ≠ [] ↔
      ((∃ es, archiveAll env.fs srcs = .ok es) ∧
        (env.archiveSize ≤ sb ∨
          (env.splitExitZero = true ∧ env.globFiles ≠ []))) := by
  cases ha : archiveAll env.fs srcs with
  | error u =>
    cases u
    rw [pack_archive_error env t b srcs sb ha]
    simp [ha]
  | ok es =>
    by_cases hs : env.archiveSize ≤ sb
    · rw [pack_below env t b srcs sb es ha hs]
      simp [ha, hs]
    · have hgt : env.archiveSize > sb := Nat.lt_of_not_le hs
      cases hz : env.splitExitZero with
      | false =>
        rw [pack_split_fail env t b srcs sb es ha hgt hz]
        simp [ha, hs, hz]
      | true =>
        rw [pack_split_ok env t b srcs sb es ha hgt hz]
        simp [ha, hs, hz, ne_eq, sortStrings_eq_nil]

/-! ## Claim C4 -/

/-- Claim C4, counterexample: with `split_bytes` = 50 MiB and an oversize
archive, the split tool is invoked with segment size `49m` — the constant
`MAX_TELEGRAM_CHUNK_MB` — and not with the `split_bytes` parameter expressed
in the tool's size-unit syntax (`50m`). -/
theorem c4_counterexample :
    (package_and_split_files ⟨fsEmptyDirs, 50 * 1024 * 1024 + 1, true, []⟩ "T" "b"
      ["/a"] (50 * 1024 * 1024)).splitCmd =
      some ["zip", "-s", "49m", "T/b_part.zip", "T/b.zip"] ∧
    thresholdSizeArg (50 * 1024 * 1024) = "50m" ∧ ("50m" : String) ≠ "49m" :=
  ⟨by decide, by decide, by decide⟩

/-- Claim C4, amended: whenever the archive exceeds `split_bytes`, the split
tool is invoked with the fixed segment-size argument `49m` — the constant
`MAX_TELEGRAM_CHUNK_MB` rendered in the tool's size-unit syntax — which
equals `split_bytes` in that syntax only when `split_bytes` is
`MAX_TELEGRAM_CHUNK_BYTES`, as at the script's sole call site. -/
theorem c4_split_size_is_constant (env : PackEnv) (t b : String)
    (srcs : List String) (sb : Nat) (es : List (String × String))
    (ha : archiveAll env.fs srcs = .ok es) (hs : env.archiveSize > sb) :
    (package_and_split_files env t b srcs sb).splitCmd =
      some ["zip", "-s", thresholdSizeArg MAX_TELEGRAM_CHUNK_BYTES,
            pathJoin t (b ++ "_part.zip"), pathJoin t (b ++ ".zip")] := by
  have harg : thresholdSizeArg MAX_TELEGRAM_CHUNK_BYTES =
      toString MAX_TELEGRAM_CHUNK_MB ++ "m" := by decide
  cases hz : env.splitExitZero with
  | false =>
    rw [pack_split_fail env t b srcs sb es ha hs hz, harg]
  | true =>
    rw [pack_split_ok env t b srcs sb es ha hs hz, harg]

theorem c4_witness :
    (package_and_split_files ⟨fsEmptyDirs, 100, true, []⟩ "T" "b" ["/a"] 10).splitCmd =
      some ["zip", "-s", thresholdSizeArg MAX_TELEGRAM_CHUNK_BYTES,
            pathJoin "T" ("b" ++ "_part.zip"), pathJoin "T" ("b" ++ ".zip")] :=
  c4_split_size_is_constant ⟨fsEmptyDirs, 100, true, []⟩ "T" "b" ["/a"] 10 [] rfl
    (by decide)

/-! ## Claim C5 -/

/-- Claim C5: when the archive exceeds the threshold and the split tool
succeeds, the original archive is removed, and — for the tool's two-digit
volume suffix scheme `<base>_part.z01 … <base>_part.zip` (any volume count
`k + 1` with `1 ≤ k ≤ 99`) — the returned list is the segment files sorted
lexicographically, which is exactly their sequential volume order. -/
theorem c5_parts_sorted_original_removed (env : PackEnv) (t b : String)
    (srcs : List String) (sb k : Nat) (es : List (String × String))
    (ha : archiveAll env.fs srcs = .ok es) (hs : env.archiveSize > sb)
    (hz : env.splitExitZero = true) (_hk1 : 1 ≤ k) (hk : k ≤ 99)
    (hg : env.globFiles.Perm (segmentNames t b k)) :
    (package_and_split_files env t b srcs sb).files = segmentNames t b k ∧
    (package_and_split_files env t b srcs sb).originalRemoved = true := by
  rw [pack_split_ok env t b srcs sb es ha hs hz]
  exact ⟨sortStrings_eq_of_perm_sorted _ _ hg (segmentNames_sorted t b k hk), rfl⟩

theorem c5_witness :
    (package_and_split_files
      ⟨fsEmptyDirs, 100, true,
        [pathJoin "T" ("b" ++ "_part.zip"),
         pathJoin "T" ("b" ++ "_part.z" ++ twoDigits 1)]⟩ "T" "b" ["/a"] 10).files =
      segmentNames "T" "b" 1 ∧
    (package_and_split_files
      ⟨fsEmptyDirs, 100, true,
        [pathJoin "T" ("b" ++ "_part.zip"),
         pathJoin "T" ("b" ++ "_part.z" ++ twoDigits 1)]⟩ "T" "b" ["/a"]
      10).originalRemoved = true :=
  c5_parts_sorted_original_removed
    ⟨fsEmptyDirs, 100, true,
      [pathJoin "T" ("b" ++ "_part.zip"),
       pathJoin "T" ("b" ++ "_part.z" ++ twoDigits 1)]⟩ "T" "b" ["/a"] 10 1 []
    rfl (by decide) rfl (by decide) (by decide) (by decide)


/-! ## Claim C6 -/

/-- Claim C6: every attempted document upload sends part `j` of the part
list with the exact caption
`Build Env (<run_id>) Part <j+1>/<n>: <filename>`, where `n` is the part
list length and `<filename>` the part's base name. -/
theorem c6_caption_format (env : MainEnv) (j : Nat) (p : String × String)
    (h : (mainRun env).uploads[j]? = some p) :
    ∃ f, (packagedFiles env)[j]? = some f ∧
      p = (f, "Build Env (" ++ env.run_number ++ ") Part " ++ toString (j + 1) ++
        "/" ++ toString (packagedFiles env).length ++ ": " ++ basename f) := by
  rcases mainRun_uploads_eq env with hu | hu
  · rw [hu] at h
    simp at h
  · rw [hu] at h
    obtain ⟨f, hf, hp⟩ := uploadLoop_get env.uploadOk env.run_number
      (packagedFiles env).length (packagedFiles env) 0 j p h
    refine ⟨f, hf, ?_⟩
    rw [hp]
    simp only [caption, Nat.zero_add]

theorem c6_witness :
    ∃ f, (packagedFiles envOnePart)[0]? = some f ∧
      (("telegram_package_temp/full_build_env_7.zip",
        "Build Env (7) Part 1/1: full_build_env_7.zip") : String × String) =
      (f, "Build Env (" ++ envOnePart.run_number ++ ") Part " ++ toString (0 + 1) ++
        "/" ++ toString (packagedFiles envOnePart).length ++ ": " ++ basename f) :=
  c6_caption_format envOnePart 0
    ("telegram_package_temp/full_build_env_7.zip",
     "Build Env (7) Part 1/1: full_build_env_7.zip") (by decide)

/-! ## Claim C7 -/

/-- Claim C7: in the upload loop, once the upload of part `k` returns
false (all earlier parts having succeeded), no later part is attempted —
the attempted files are exactly the first `k + 1` parts — and the final
summary message is the partial-failure warning, not the success text. -/
theorem c7_halt_on_first_failure (env : MainEnv) (k : Nat) (fk : String)
    (h1 : env.tokenPresent = true) (h2 : env.chatPresent = true)
    (h3 : env.msgOk 0 = true) (h4 : env.msgOk 1 = true)
    (hk : (packagedFiles env)[k]? = some fk) (hfk : env.uploadOk fk = false)
    (hprev : ∀ j f, j < k → (packagedFiles env)[j]? = some f →
      env.uploadOk f = true) :
    (mainRun env).uploads.map Prod.fst = (packagedFiles env).take (k + 1) ∧
    (mainRun env).messages = [startText, uploadingText, warningText] := by
  have hne : packagedFiles env ≠ [] := by
    intro he
    rw [he] at hk
    simp at hk
  have hml := mainRun_loop env h1 h2 h3 hne h4
  have hloop := uploadLoop_halt env.uploadOk env.run_number
    (packagedFiles env).length (packagedFiles env) 0 k fk hk hfk hprev
  rw [hml]
  exact ⟨hloop.1, by simp [hloop.2]⟩

theorem c7_witness :
    (mainRun envUploadFails).uploads.map Prod.fst =
      (packagedFiles envUploadFails).take (0 + 1) ∧
    (mainRun envUploadFails).messages = [startText, uploadingText, warningText] :=
  c7_halt_on_first_failure envUploadFails 0
    "telegram_package_temp/full_build_env_7.zip" rfl rfl rfl rfl (by decide) rfl
    (fun j _ hj _ => absurd hj (Nat.not_lt_zero j))

/-! ## Claim C8 -/

/-- Claim C8: archive creation is asymmetric — a non-existent source path
is skipped and archiving continues exactly as if that path had not been
listed, while an exception raised by any archive write aborts the whole
operation and makes `package_and_split_files` return an empty list. -/
theorem c8_missing_skipped_exception_aborts :
    (∀ (fs : FS) (pre : List String) (p : String) (post : List String),
      fs.fsExists p = false →
      archiveAll fs (pre ++ p :: post) = archiveAll fs (pre ++ post)) ∧
    (∀ (env : PackEnv) (t b : String) (srcs : List String) (sb : Nat),
      archiveAll env.fs srcs = .error () →
      (package_and_split_files env t b srcs sb).files = []) := by
  constructor
  · intro fs pre p post hp
    unfold archiveAll
    exact archiveGo_skip fs p hp pre _ _ post
  · intro env t b srcs sb ha
    rw [pack_archive_error env t b srcs sb ha]

theorem c8_witness :
    archiveAll fsOneMissing (["/a"] ++ "/missing" :: ["/b"]) =
      archiveAll fsOneMissing (["/a"] ++ ["/b"]) ∧
    (package_and_split_files ⟨fsWriteRaises, 0, true, []⟩ "T" "b" ["/a"] 10).files =
      [] :=
  ⟨c8_missing_skipped_exception_aborts.1 fsOneMissing ["/a"] "/missing" ["/b"]
      (by decide),
   c8_missing_skipped_exception_aborts.2 ⟨fsWriteRaises, 0, true, []⟩ "T" "b"
      ["/a"] 10 rfl⟩

/-! ## Claim C9 -/

/-- Claim C9, counterexample: a run with credentials present whose
packaging would produce a non-empty part list exits with status 1 because a
status-message send fails — refuting the claim that exit status 1 is
produced only for missing credentials or an empty part list. -/
theorem c9_counterexample :
    (mainRun envMsgFails).exitCode = 1 ∧ envMsgFails.tokenPresent = true ∧
    envMsgFails.chatPresent = true ∧ packagedFiles envMsgFails ≠ [] := by
  refine ⟨rfl, rfl, rfl, by decide⟩

/-- Claim C9, amended: a failed document upload never changes the exit
status (the exit code is independent of the upload results); the run exits
with status 0 iff the credentials are present, all three status messages
send, and the part list is non-empty — so status 1 is produced exactly for
missing credentials, an empty part list, or a failed status-message send. -/
theorem c9_exit_code_characterization (env : MainEnv) :
    ((mainRun env).exitCode = 0 ↔
      (env.tokenPresent = true ∧ env.chatPresent = true ∧ env.msgOk 0 = true ∧
       env.msgOk 1 = true ∧ env.msgOk 2 = true ∧ packagedFiles env ≠ [])) ∧
    (∀ u, (mainRun { env with uploadOk := u }).exitCode =
      (mainRun env).exitCode) := by
  constructor
  · rw [mainRun_exitCode env]
    split_ifs with hC
    · exact iff_of_true rfl hC
    · exact iff_of_false (by simp) hC
  · intro u
    rw [mainRun_exitCode { env with uploadOk := u }, mainRun_exitCode env]
    rfl

/-! ## Claim C10 -/

/-- Claim C10: the `commonpath` branch of the entry-naming rule is dead —
every entry written to the archive is named relative to its own source
path's parent directory, because `os.walk` yields files only when the
source path is a directory (so `os.path.isdir(source_path)` is true for
every written entry). -/
theorem c10_entry_names_use_dirname (fs : FS) (srcs : List String)
    (entries : List (String × String))
    (ha : archiveAll fs srcs = .ok entries) :
    ∀ e ∈ entries, ∃ src, src ∈ srcs ∧ fs.isDir src = true ∧
      e.2 = relpath e.1 (dirname src) :=
  archiveGo_entry_dir fs srcs srcs entries ha

theorem c10_witness :
    ∃ src, src ∈ ["/a"] ∧ fsOneFile.isDir src = true ∧
      (relpath "/a/f.txt" (dirname "/a")) = relpath "/a/f.txt" (dirname src) :=
  c10_entry_names_use_dirname fsOneFile ["/a"]
    [("/a/f.txt", relpath "/a/f.txt" (dirname "/a"))] rfl
    ("/a/f.txt", relpath "/a/f.txt" (dirname "/a")) (by simp)

end App
